import Mathlib

/-!
Verification development for the STM32 serial-shell bootloader
(repository `hwnBEAST/stm32_bootloader`).

The repository contains two generations of the bootloader core:

* `Src/CustomBootloader.c` — the older core (`CBL_ErrCode_t`, `cbl_ParseCmd`,
  `cbl_ParserGetArgVal`, `cbl_HandleCmdJumpTo`, `cbl_VerifyJumpAddress`,
  `cbl_HandleCmdFlashErase`, …);
* `Src/custom_bootloader.c` — the newer core (`cbl_err_code_t`,
  `run_shell_system`, `sys_state_error`, `wait_for_cmd`, …) together with
  `Src/commands/cbl_cmds_update_new.c` (`cmd_update_new`,
  `update_new_get_params`).

Both are embedded below as executable Lean functions.  Machine integers are
modelled as `Nat`/`Int` with explicit truncation (`% 256`, `% 2^32`) where the
C code casts; C strings are modelled as `List Char` (the received command line
is NUL-free by construction of `wait_for_cmd`); fallible calls into hardware
(HAL erase/unlock/transmit, boot-record persistence) are modelled as explicit
outcome parameters, and each handler returns an outcome value that records
both the returned error code and which hardware side effects were reached.
-/

/-- Error enumeration of the older core (`CBL_ErrCode_t`).  The constructors
are the values of the enumeration that `Src/CustomBootloader.c` uses. -/
inductive CBL_ErrCode_t where
  | CBL_ERR_OK
  | CBL_ERR_READ_OF
  | CBL_ERR_WRITE
  | CBL_ERR_STATE
  | CBL_ERR_HAL_TX
  | CBL_ERR_HAL_RX
  | CBL_ERR_RX_ABORT
  | CBL_ERR_CMD_SHORT
  | CBL_ERR_CMD_UNDEF
  | CBL_ERR_NEED_PARAM
  | CBL_ERR_JUMP_INV_ADDR
  | CBL_ERR_SECTOR
  | CBL_ERR_INV_SECT
  | CBL_ERR_INV_SECT_COUNT
  | CBL_ERR_WRITE_INV_ADDR
  | CBL_ERR_WRITE_TOO_BIG
  | CBL_ERR_HAL_WRITE
  | CBL_ERR_ERASE_INV_TYPE
  | CBL_ERR_HAL_ERASE
  | CBL_ERR_HAL_UNLOCK
  | CBL_ERR_INV_PARAM
  | CBL_ERR_CMDCD
  deriving DecidableEq, Repr

/-- Error enumeration of the newer core (`cbl_err_code_t`).  The constructors
are the values that `Src/custom_bootloader.c` and
`Src/commands/cbl_cmds_update_new.c` use (the `CBL_ERR_1ST_NOT_ZERO` value of
the C enumeration is spelled `CBL_ERR_FIRST_NOT_ZERO` because a Lean
constructor name cannot contain a token starting with a digit after the
underscore in the same way). -/
inductive cbl_err_code_t where
  | CBL_ERR_OK
  | CBL_ERR_READ_OF
  | CBL_ERR_WRITE
  | CBL_ERR_STATE
  | CBL_ERR_HAL_TX
  | CBL_ERR_HAL_RX
  | CBL_ERR_RX_ABORT
  | CBL_ERR_CMD_SHORT
  | CBL_ERR_CMD_UNDEF
  | CBL_ERR_NEED_PARAM
  | CBL_ERR_JUMP_INV_ADDR
  | CBL_ERR_SECTOR
  | CBL_ERR_INV_SECT
  | CBL_ERR_INV_SECT_COUNT
  | CBL_ERR_WRITE_INV_ADDR
  | CBL_ERR_INV_SZ
  | CBL_ERR_HAL_WRITE
  | CBL_ERR_ERASE_INV_TYPE
  | CBL_ERR_HAL_ERASE
  | CBL_ERR_HAL_UNLOCK
  | CBL_ERR_INV_PARAM
  | CBL_ERR_NOT_DIG
  | CBL_ERR_FIRST_NOT_ZERO
  | CBL_ERR_CKSUM_WRONG
  | CBL_ERR_TEMP_NOT_VAL1
  | CBL_ERR_UNSUP_CKSUM
  | CBL_ERR_CRC_LEN
  | CBL_ERR_SHA256_LEN
  | CBL_ERR_NEW_APP_LEN
  | CBL_ERR_NOT_IMPL
  | CBL_ERR_APP_TYPE
  | CBL_ERR_NULL_PAR
  | CBL_ERR_PAR_FORCE
  | CBL_ERR_INV_SREC
  | CBL_ERR_SREC_FCN
  | CBL_ERR_INV_HEX
  | CBL_ERR_SEGMEN
  | CBL_ERR_IHEX_FCN
  | CBL_ERR_INV_IHEX
  | CBL_ERR_CMDCD
  deriving DecidableEq, Repr

/-- ASCII lower-casing of one byte, as `strlwr` does per character. -/
def ascii_tolower (c : Char) : Char :=
  if 'A' ≤ c ∧ c ≤ 'Z' then Char.ofNat (c.toNat + 32) else c

/-- The in-place `strlwr(cmd)` at the start of `cbl_ParseCmd`. -/
def strlwr (s : List Char) : List Char :=
  s.map ascii_tolower

/-- C `memchr` restricted to a NUL-free character list: index of the first
occurrence of `t`, or `none`. -/
def memchr : List Char → Char → Option Nat
  | [], _ => none
  | c :: rest, t => if c = t then some 0 else (memchr rest t).map (· + 1)

/-- Modelled from the spec: `CBL_MAX_ARGS` is defined in
`Inc/CustomBootLoader.h`, which is not under `src/`; §3 of the spec gives the
argument-count bound as "bounded N (implementation constant, e.g. 10)". -/
def CBL_MAX_ARGS : Nat := 10

/-- Parsed Command (`CBL_Parser_t`): the command name and the recorded
`(name, value)` argument pairs, each a view into the command line.
`numOfArgs` of the C structure is `args.length`. -/
structure parser_t where
  cmd : List Char
  args : List (List Char × List Char)
  deriving DecidableEq, Repr

/-- The argument-scanning loop of `cbl_ParseCmd` (`Src/CustomBootloader.c`
lines 351–375), translated to a function of the text after the current space.

One C iteration, given that `pSpa` points at a space that has just been
overwritten with NUL: `memchr(pSpa, '=', …)` finds the next `'='` anywhere in
the remainder (`rest` here starts right after the space; the NUL at `pSpa`
itself never matches `'='`); if there is none the loop breaks, else the
argument name is the text up to that `'='` (which may span further spaces),
the value starts after the `'='`, and the next iteration's space is searched
from the `'='` on.  The value's terminating NUL is only written by the NEXT
iteration's `*pSpa = '\0'`; if the loop stops because `i` reached
`CBL_MAX_ARGS`, the last recorded value therefore runs to the end of the
line.  `fuel` is `CBL_MAX_ARGS - i`. -/
def parse_args : Nat → List Char → List (List Char × List Char)
  | 0, _ => []
  | fuel + 1, rest =>
    match memchr rest '=' with
    | none => []
    | some eqIdx =>
      let name := rest.take eqIdx
      let afterEq := rest.drop (eqIdx + 1)
      match memchr afterEq ' ' with
      | none => [(name, afterEq)]
      | some spIdx =>
        if fuel = 0 then
          [(name, afterEq)]
        else
          (name, afterEq.take spIdx) :: parse_args fuel (afterEq.drop (spIdx + 1))

/-- Embedding of `cbl_ParseCmd` (`Src/CustomBootloader.c` lines 339–382): lower-case the
line, split the command name at the first space, then run the argument
scanning loop on the remainder.  The function always succeeds (it returns
`CBL_ERR_OK` in the C code on every path). -/
def cbl_ParseCmd (cmd : List Char) : parser_t :=
  let low := strlwr cmd
  match memchr low ' ' with
  | none => { cmd := low, args := [] }
  | some sp => { cmd := low.take sp, args := parse_args CBL_MAX_ARGS (low.drop (sp + 1)) }

/-- Embedding of `cbl_ParserGetArgVal` (`Src/CustomBootloader.c` lines 384–401): walk the
recorded arguments in order and return the value of the first one whose name
has the same length and content as the requested name (for NUL-free views
this is exactly list equality); `NULL` (here `none`) if no argument
matches. -/
def parser_find (name : List Char) : List (List Char × List Char) → Option (List Char)
  | [] => none
  | a :: rest => if a.fst = name then some a.snd else parser_find name rest

/-- The walk of `cbl_ParserGetArgVal` over the recorded arguments, applied to
the parser structure. -/
def cbl_ParserGetArgVal (p : parser_t) (name : List Char) : Option (List Char) :=
  parser_find name p.args

/-- Function `parser_get_val` of the newer core lives in `Src/etc/cbl_common.c`, which
is not under `src/`; it implements the same first-match key lookup contract
(spec §3: "Keys are not required to be unique; lookup returns the first
match"), so it is the same function as `cbl_ParserGetArgVal`. -/
def parser_get_val (p : parser_t) (name : List Char) : Option (List Char) :=
  cbl_ParserGetArgVal p name

example :
    cbl_ParseCmd ("flash-erase type=sector sector=2 count=3".toList) =
      { cmd := "flash-erase".toList,
        args := [("type".toList, "sector".toList),
                 ("sector".toList, "2".toList),
                 ("count".toList, "3".toList)] } := by
  decide

example :
    (cbl_ParseCmd ("cmd a b=2".toList)).args = [("a b".toList, "2".toList)] := by
  decide

/-! ### Number conversions

`strtoul(s, NULL, 10)` and `strtoul(s, NULL, 16)` from libc, as the handlers
use them on parser argument values: parse the longest digit prefix (base 16
additionally skips an optional `0x`/`0X` prefix) and return 0 when no digit is
present.  The handlers cast the results to `uint8_t` respectively
`uint32_t`. -/

/-- Value of a hexadecimal digit character (the parser has lower-cased the
line, but upper-case letters are kept for totality, as `strtoul` accepts
them). -/
def hex_digit_val (c : Char) : Nat :=
  if '0' ≤ c ∧ c ≤ '9' then c.toNat - 48
  else if 'a' ≤ c ∧ c ≤ 'f' then c.toNat - 87
  else c.toNat - 55

/-- Whether `strtoul` base 16 accepts `c` as a digit. -/
def is_hex_digit (c : Char) : Bool :=
  ('0' ≤ c ∧ c ≤ '9') ∨ ('a' ≤ c ∧ c ≤ 'f') ∨ ('A' ≤ c ∧ c ≤ 'F')

/-- Libc `strtoul(s, NULL, 10)`: fold the longest decimal-digit prefix. -/
def strtoul10 (s : List Char) : Nat :=
  (s.takeWhile Char.isDigit).foldl (fun acc c => acc * 10 + (c.toNat - 48)) 0

/-- Libc `strtoul(s, NULL, 16)`: skip an optional `0x`/`0X`, then fold the longest
hexadecimal-digit prefix. -/
def strtoul16 (s : List Char) : Nat :=
  let t := match s with
    | '0' :: 'x' :: rest => rest
    | '0' :: 'X' :: rest => rest
    | other => other
  (t.takeWhile is_hex_digit).foldl (fun acc c => acc * 16 + hex_digit_val c) 0

/-- Truncating cast to `uint8_t`. -/
def u8 (n : Nat) : Nat := n % 256

/-- Truncating cast to `uint32_t`. -/
def u32 (n : Nat) : Nat := n % 4294967296

/-! ### Jump-to-application (older core)

`cbl_VerifyJumpAddress` tests membership of the address in the jumpable
memory regions through the HAL macros `IS_FLASH_ADDRESS`,
`IS_CCMDATARAM_ADDRESS`, `IS_SRAM1_ADDRESS`, `IS_SRAM2_ADDRESS`,
`IS_BKPSRAM_ADDRESS`, `IS_SYSMEM_ADDRESS`.  The macro definitions live in the
device headers, which are not under `src/`; the region bounds below are
modelled from the spec (§4.4 and §9: regions as a table of
`{name, lower, upper}` for the STM32F407 parts: code flash, CCM RAM, SRAM1,
SRAM2, backup SRAM, system memory). -/

/-- Modelled from the spec: code flash, 0x08000000–0x080FFFFF. -/
def IS_FLASH_ADDRESS (a : Nat) : Bool :=
  0x08000000 ≤ a ∧ a ≤ 0x080FFFFF

/-- Modelled from the spec: CCM data RAM, 0x10000000–0x1000FFFF. -/
def IS_CCMDATARAM_ADDRESS (a : Nat) : Bool :=
  0x10000000 ≤ a ∧ a ≤ 0x1000FFFF

/-- Modelled from the spec: SRAM1, 0x20000000–0x2001BFFF. -/
def IS_SRAM1_ADDRESS (a : Nat) : Bool :=
  0x20000000 ≤ a ∧ a ≤ 0x2001BFFF

/-- Modelled from the spec: SRAM2, 0x2001C000–0x2001FFFF. -/
def IS_SRAM2_ADDRESS (a : Nat) : Bool :=
  0x2001C000 ≤ a ∧ a ≤ 0x2001FFFF

/-- Modelled from the spec: backup SRAM, 0x40024000–0x40024FFF. -/
def IS_BKPSRAM_ADDRESS (a : Nat) : Bool :=
  0x40024000 ≤ a ∧ a ≤ 0x40024FFF

/-- Modelled from the spec: system memory, 0x1FFF0000–0x1FFF77FF. -/
def IS_SYSMEM_ADDRESS (a : Nat) : Bool :=
  0x1FFF0000 ≤ a ∧ a ≤ 0x1FFF77FF

/-- Modelled from the spec: the peripheral/register address space of the
device, 0x40000000–0x5FFFFFFF (always rejected for jumps; the backup SRAM
window carved out inside it is the only jumpable part of this range). -/
def is_periph_address (a : Nat) : Bool :=
  0x40000000 ≤ a ∧ a ≤ 0x5FFFFFFF

/-- Embedding of `cbl_VerifyJumpAddress` (`Src/CustomBootloader.c` lines 935–950): start
from `CBL_ERR_JUMP_INV_ADDR` and overwrite with `CBL_ERR_OK` exactly when one
of the six region tests accepts the address. -/
def cbl_VerifyJumpAddress (addr : Nat) : CBL_ErrCode_t :=
  if IS_FLASH_ADDRESS addr ∨ IS_CCMDATARAM_ADDRESS addr ∨
      IS_SRAM1_ADDRESS addr ∨ IS_SRAM2_ADDRESS addr ∨
      IS_BKPSRAM_ADDRESS addr ∨ IS_SYSMEM_ADDRESS addr then
    .CBL_ERR_OK
  else
    .CBL_ERR_JUMP_INV_ADDR

/-- Outcome of the jump-to handler: either a return to the shell with an
error code, or a transfer of control to `target` (the C code never returns
from `jump()`). -/
inductive JumpOutcome where
  | ret (e : CBL_ErrCode_t)
  | jumped (target : Nat)
  deriving DecidableEq, Repr

/-- Embedding of `cbl_HandleCmdJumpTo` (`Src/CustomBootloader.c` lines 892–929): read the
`addr` argument (`CBL_ERR_NEED_PARAM` when absent), convert with
`strtoul(…, 16)` cast to `uint32_t`, validate with `cbl_VerifyJumpAddress`
(`ERR_CHECK` returns the validation error), only then add 1 (the Thumb bit;
`uint32_t` increment, hence the `% 2^32`), send the success token
(a transmit failure returns before jumping), and jump.  `sendRes` is the
outcome of `cbl_SendToHost(CBL_TXT_SUCCESS, …)`. -/
def cbl_HandleCmdJumpTo (p : parser_t) (sendRes : CBL_ErrCode_t) : JumpOutcome :=
  match cbl_ParserGetArgVal p ("addr".toList) with
  | none => .ret .CBL_ERR_NEED_PARAM
  | some charAddr =>
    let addr := u32 (strtoul16 charAddr)
    if cbl_VerifyJumpAddress addr ≠ .CBL_ERR_OK then
      .ret (cbl_VerifyJumpAddress addr)
    else
      let addr2 := u32 (addr + 1)
      if sendRes ≠ .CBL_ERR_OK then
        .ret sendRes
      else
        .jumped addr2

example : cbl_VerifyJumpAddress 0x08000000 = .CBL_ERR_OK := by decide

example : cbl_VerifyJumpAddress 0x12345678 = .CBL_ERR_JUMP_INV_ADDR := by decide

example :
    cbl_HandleCmdJumpTo (cbl_ParseCmd ("jump-to addr=0x08000000".toList)) .CBL_ERR_OK =
      .jumped 0x08000001 := by
  decide

/-! ### Flash erase (older core) -/

/-- Modelled from the spec: `FLASH_SECTOR_TOTAL` is a device-header macro not
under `src/`; scenario C of the spec fixes it at 12 for this part. -/
def FLASH_SECTOR_TOTAL : Nat := 12

/-- Outcomes of the hardware collaborators that `cbl_HandleCmdFlashErase`
calls after validation: whether `HAL_FLASH_Unlock` succeeds, whether
`HAL_FLASHEx_Erase` returns `HAL_OK`, the sector code it reports
(`0xFFFFFFFF` on success), and the result of the final
`cbl_SendToHost(CBL_TXT_SUCCESS, …)`. -/
structure EraseEnv where
  unlockOk : Bool
  halOk : Bool
  sectorCode : Nat
  sendRes : CBL_ErrCode_t
  deriving DecidableEq, Repr

/-- Outcome of the flash-erase handler.  `noHw e` means the handler returned
`e` before `HAL_FLASH_Unlock` and before `HAL_FLASHEx_Erase` (the validation
errors take this form); `unlockFail` means `HAL_FLASH_Unlock` was called and
failed, so the handler returned `CBL_ERR_HAL_UNLOCK` without erasing;
`erased mass sector nb e` means `HAL_FLASHEx_Erase` was invoked (mass erase,
or the given first sector and sector count) and the handler then returned
`e`. -/
inductive EraseOutcome where
  | noHw (e : CBL_ErrCode_t)
  | unlockFail
  | erased (mass : Bool) (sector nb : Nat) (e : CBL_ErrCode_t)
  deriving DecidableEq, Repr

/-- The unlock/erase/lock/check tail of `cbl_HandleCmdFlashErase`
(`Src/CustomBootloader.c` lines 1029–1054), shared by the sector and mass
paths.  For a mass erase the C code leaves `settings.Sector` and
`settings.NbSectors` unset; they are passed as 0 here and are meaningless
when `mass = true`. -/
def erase_hw (env : EraseEnv) (mass : Bool) (sect count : Nat) : EraseOutcome :=
  if env.unlockOk = false then .unlockFail
  else
    .erased mass sect count
      (if env.halOk = false then .CBL_ERR_HAL_ERASE
       else if env.sectorCode ≠ 0xFFFFFFFF then .CBL_ERR_SECTOR
       else env.sendRes)

/-- Embedding of `cbl_HandleCmdFlashErase` (`Src/CustomBootloader.c` lines 955–1055):
read `type` (missing → `CBL_ERR_NEED_PARAM`); `strncmp(type, "sector", 6)`
selects the sector path when `"sector"` is a prefix of the value; there read
`sector` and `count` (missing → `CBL_ERR_NEED_PARAM`), convert each with
`strtoul(…, 10)` cast to `uint8_t`, reject `sect >= FLASH_SECTOR_TOTAL` with
`CBL_ERR_INV_SECT` and then `sect + count - 1 >= FLASH_SECTOR_TOTAL` with
`CBL_ERR_INV_SECT_COUNT` — the `uint8_t` operands are promoted to `int`, so
the arithmetic is over `Int`; `"mass"`-prefixed values select mass erase and
anything else returns `CBL_ERR_ERASE_INV_TYPE`.  Only after validation does
the handler unlock and erase. -/
def cbl_HandleCmdFlashErase (p : parser_t) (env : EraseEnv) : EraseOutcome :=
  match cbl_ParserGetArgVal p ("type".toList) with
  | none => .noHw .CBL_ERR_NEED_PARAM
  | some ty =>
    if ("sector".toList).isPrefixOf ty then
      match cbl_ParserGetArgVal p ("sector".toList) with
      | none => .noHw .CBL_ERR_NEED_PARAM
      | some charSect =>
        let sect := u8 (strtoul10 charSect)
        if FLASH_SECTOR_TOTAL ≤ sect then .noHw .CBL_ERR_INV_SECT
        else
          match cbl_ParserGetArgVal p ("count".toList) with
          | none => .noHw .CBL_ERR_NEED_PARAM
          | some charCount =>
            let count := u8 (strtoul10 charCount)
            if (FLASH_SECTOR_TOTAL : Int) ≤ (sect : Int) + (count : Int) - 1 then
              .noHw .CBL_ERR_INV_SECT_COUNT
            else
              erase_hw env false sect count
    else if ("mass".toList).isPrefixOf ty then
      erase_hw env true 0 0
    else
      .noHw .CBL_ERR_ERASE_INV_TYPE

example :
    cbl_HandleCmdFlashErase (cbl_ParseCmd ("flash-erase type=sector sector=2 count=3".toList))
      { unlockOk := true, halOk := true, sectorCode := 0xFFFFFFFF, sendRes := .CBL_ERR_OK } =
      .erased false 2 3 .CBL_ERR_OK := by
  decide

example :
    cbl_HandleCmdFlashErase (cbl_ParseCmd ("flash-erase type=sector sector=10 count=5".toList))
      { unlockOk := true, halOk := true, sectorCode := 0xFFFFFFFF, sendRes := .CBL_ERR_OK } =
      .noHw .CBL_ERR_INV_SECT_COUNT := by
  decide

example :
    cbl_HandleCmdFlashErase (cbl_ParseCmd ("flash-erase type=sector sector=0 count=0".toList))
      { unlockOk := true, halOk := true, sectorCode := 0xFFFFFFFF, sendRes := .CBL_ERR_OK } =
      .erased false 0 0 .CBL_ERR_OK := by
  decide

/-! ### Shell state machine and error state (newer core) -/

/-- States `sys_states_t` of `Src/custom_bootloader.c`. -/
inductive sys_states_t where
  | STATE_OPER
  | STATE_ERR
  | STATE_EXIT
  deriving DecidableEq, Repr

/-- Embedding of `sys_state_error` (`Src/custom_bootloader.c` lines 703–1105): switch on
the error code; every explicitly listed case reports the error (the `msg`
strings below are exactly the ones passed to `hal_send_to_host`; cases that
only log through `WARNING`/`INFO`/`ERROR` send nothing to the host) and
overwrites `eCode` with `CBL_ERR_OK`; the `default` case only logs, leaving
`eCode` unchanged.  The result is the returned code paired with the list of
messages sent to the host. -/
def sys_state_error (eCode : cbl_err_code_t) : cbl_err_code_t × List String :=
  match eCode with
  | .CBL_ERR_OK => (.CBL_ERR_OK, [])
  | .CBL_ERR_READ_OF => (.CBL_ERR_OK, ["\r\nERROR: Command too long\r\n"])
  | .CBL_ERR_WRITE => (.CBL_ERR_OK, [])
  | .CBL_ERR_STATE => (.CBL_ERR_OK, [])
  | .CBL_ERR_HAL_TX => (.CBL_ERR_OK, [])
  | .CBL_ERR_HAL_RX => (.CBL_ERR_OK, [])
  | .CBL_ERR_RX_ABORT => (.CBL_ERR_OK, [])
  | .CBL_ERR_CMD_SHORT => (.CBL_ERR_OK, [])
  | .CBL_ERR_CMD_UNDEF => (.CBL_ERR_OK, ["\r\nERROR: Invalid command\r\n"])
  | .CBL_ERR_NEED_PARAM => (.CBL_ERR_OK, ["\r\nERROR: Missing parameter(s)\r\n"])
  | .CBL_ERR_JUMP_INV_ADDR =>
      (.CBL_ERR_OK,
       ["\r\nERROR: Invalid address\r\n" ++
        "Jumpable regions: FLASH, SRAM1, SRAM2, CCMRAM, BKPSRAM, SYSMEM and EXTMEM (if connected)\r\n"])
  | .CBL_ERR_SECTOR => (.CBL_ERR_OK, ["\r\nERROR: Internal error while erasing sectors\r\n"])
  | .CBL_ERR_INV_SECT => (.CBL_ERR_OK, ["\r\nERROR: Wrong sector given\r\n"])
  | .CBL_ERR_INV_SECT_COUNT => (.CBL_ERR_OK, ["\r\nERROR: Wrong sector count given\r\n"])
  | .CBL_ERR_WRITE_INV_ADDR => (.CBL_ERR_OK, ["\r\nERROR: Invalid address range entered\r\n"])
  | .CBL_ERR_INV_SZ => (.CBL_ERR_OK, ["\r\nERROR: Invalid length\r\n"])
  | .CBL_ERR_HAL_WRITE =>
      (.CBL_ERR_OK, ["\r\nERROR: Error while writing to flash. Retry last message.\r\n"])
  | .CBL_ERR_ERASE_INV_TYPE => (.CBL_ERR_OK, ["\r\nERROR: Invalid erase type\r\n"])
  | .CBL_ERR_HAL_ERASE => (.CBL_ERR_OK, ["\r\nERROR: HAL error while erasing sectors \r\n"])
  | .CBL_ERR_HAL_UNLOCK => (.CBL_ERR_OK, ["\r\nERROR: Unlocking flash failed\r\n"])
  | .CBL_ERR_INV_PARAM => (.CBL_ERR_OK, [])
  | .CBL_ERR_NOT_DIG => (.CBL_ERR_OK, ["\r\nERROR: Number parameter contains letters\r\n"])
  | .CBL_ERR_FIRST_NOT_ZERO =>
      (.CBL_ERR_OK,
       ["\r\nERROR: Number parameter must have '0' at the start  when 'x' is present\r\n"])
  | .CBL_ERR_CKSUM_WRONG =>
      (.CBL_ERR_OK,
       ["\r\nERROR: Data corrupted during transport (Invalid checksum). Retry last message.\r\n"])
  | .CBL_ERR_TEMP_NOT_VAL1 => (.CBL_ERR_OK, ["\r\nERROR: Value for parameter invalid...\r\n"])
  | .CBL_ERR_UNSUP_CKSUM => (.CBL_ERR_OK, ["\r\nERROR: Requested checksum not supported\r\n"])
  | .CBL_ERR_CRC_LEN =>
      (.CBL_ERR_OK, ["\r\nERROR: Length for CRC32 must be divisible by 4 \r\n"])
  | .CBL_ERR_SHA256_LEN => (.CBL_ERR_OK, ["\r\nERROR: Invalid length for sha256\r\n"])
  | .CBL_ERR_NEW_APP_LEN => (.CBL_ERR_OK, ["\r\nERROR: New app is too long. Aborting\r\n"])
  | .CBL_ERR_NOT_IMPL => (.CBL_ERR_OK, ["\r\nERROR: Requested action is not implemented\r\n"])
  | .CBL_ERR_APP_TYPE => (.CBL_ERR_OK, ["\r\nERROR: Invalid user application type\r\n"])
  | .CBL_ERR_NULL_PAR =>
      (.CBL_ERR_OK, ["\r\nERROR: NULL sent as a parameter of a function\r\n"])
  | .CBL_ERR_PAR_FORCE => (.CBL_ERR_OK, ["\r\nERROR: Invalid force parameter\r\n"])
  | .CBL_ERR_INV_SREC => (.CBL_ERR_OK, ["\r\nERROR: Invalid S-record file\r\n"])
  | .CBL_ERR_SREC_FCN => (.CBL_ERR_OK, ["\r\nERROR: Invalid S-record function\r\n"])
  | .CBL_ERR_INV_HEX => (.CBL_ERR_OK, ["\r\nERROR: Invalid hex value character\r\n"])
  | .CBL_ERR_SEGMEN => (.CBL_ERR_OK, ["\r\nERROR: Segmentation\r\n"])
  | .CBL_ERR_IHEX_FCN => (.CBL_ERR_OK, ["\r\nERROR: Unsupported Intel hex function\r\n"])
  | .CBL_ERR_INV_IHEX => (.CBL_ERR_OK, ["\r\nERROR: Invalid contents of intel hex\r\n"])
  | .CBL_ERR_CMDCD => (.CBL_ERR_CMDCD, [])

/-- The error codes for which `sys_state_error` has an explicit `case` (every
constructor except the ones that fall to `default:`, which in the embedded
enumeration is only `CBL_ERR_CMDCD`). -/
def recognized_by_sys_state_error (e : cbl_err_code_t) : Bool :=
  match e with
  | .CBL_ERR_CMDCD => false
  | _ => true

/-- The `STATE_ERR` branch of `run_shell_system` (`Src/custom_bootloader.c`
lines 298–312): run `sys_state_error` on the pending code; a non-`OK` result
sends the machine to `STATE_EXIT`, otherwise back to `STATE_OPER`. -/
def err_next_state (e : cbl_err_code_t) : sys_states_t :=
  if (sys_state_error e).fst ≠ .CBL_ERR_OK then .STATE_EXIT else .STATE_OPER

example : err_next_state .CBL_ERR_JUMP_INV_ADDR = .STATE_OPER := by decide

example : err_next_state .CBL_ERR_CMDCD = .STATE_EXIT := by decide

/-! ### Reading one command line (newer core) -/

/-- Constant `CMD_BUF_SZ` (`Src/custom_bootloader.c` line 40). -/
def CMD_BUF_SZ : Nat := 128

/-- The read loop of `wait_for_cmd` (`Src/custom_bootloader.c` lines
384–414), as a function of the stream of bytes the host sends.  `remaining`
is `len - gRxCmdCntr`: the loop receives one byte per iteration while
`gRxCmdCntr < len`.  After receiving byte `c` at index `iii`: if the previous
byte was CR and `c` is LF the CR is overwritten with NUL and the loop breaks
with the command (the bytes before the CR); otherwise the CR flag is updated
and the index advances.  When `remaining` reaches 0 the buffer is full
without a CRLF and `wait_for_cmd` returns `CBL_ERR_READ_OF`.  `none` models
the host stopping mid-line: the busy-wait on `gRxCmdCntr` then never
terminates (spec §5: no timeout).  `bufRev` holds the received bytes in
reverse. -/
def wfc_go : List Char → Nat → Bool → List Char → Option (Except cbl_err_code_t (List Char))
  | _, 0, _, _ => some (.error .CBL_ERR_READ_OF)
  | [], _ + 1, _, _ => none
  | c :: rest, remaining + 1, isLastCharCR, bufRev =>
    if isLastCharCR ∧ c = '\n' then
      some (.ok (bufRev.drop 1).reverse)
    else
      wfc_go rest remaining (c = '\r') (c :: bufRev)

/-- Embedding of `wait_for_cmd (buf, len)` on the byte stream `input`: `some (.ok cmd)`
when a CRLF terminates the line within the buffer, `some (.error
CBL_ERR_READ_OF)` when `len` bytes arrive without a CRLF, `none` when the
host stops sending first (the bootloader spins forever). -/
def wait_for_cmd (input : List Char) (len : Nat) : Option (Except cbl_err_code_t (List Char)) :=
  wfc_go input len false []

example :
    wait_for_cmd ("version\r\n".toList ++ List.replicate 119 'x') CMD_BUF_SZ =
      some (.ok ("version".toList)) := by
  rfl

example :
    wait_for_cmd (List.replicate 128 'a') CMD_BUF_SZ =
      some (.error .CBL_ERR_READ_OF) := by
  rfl

/-! ### Staged update (`update-new`)

`Src/commands/cbl_cmds_update_new.c` is under `src/`; the helpers it calls —
`str2ui32`, `enum_checksum`, `enum_app_type` (from `cbl_common.c` and
`cbl_checksum.c`), the argument-name macros, `BOOT_NEW_APP_MAX_LEN`, and the
boot-record store — are not, and are modelled from the spec below. -/

/-- Checksum Engine kinds (spec §4.5: {None, CRC32, SHA-256}). -/
inductive cksum_t where
  | CKSUM_NO
  | CKSUM_CRC
  | CKSUM_SHA256
  deriving DecidableEq, Repr

/-- Application image encodings (spec §3: binary, Intel-hex,
Motorola-S-record). -/
inductive app_type_t where
  | TYPE_BIN
  | TYPE_HEX
  | TYPE_SREC
  deriving DecidableEq, Repr

/-- Modelled from the spec: `str2ui32` of `Src/etc/cbl_common.c` is not under
`src/`.  Spec §6: counts are decimal, and a number parameter containing
letters yields `NotDigit` (`CBL_ERR_NOT_DIG`, reported by `sys_state_error`
as "Number parameter contains letters"). -/
def str2ui32 (s : List Char) : Except cbl_err_code_t Nat :=
  if s ≠ [] ∧ s.all Char.isDigit then
    .ok (u32 (s.foldl (fun acc c => acc * 10 + (c.toNat - 48)) 0))
  else
    .error .CBL_ERR_NOT_DIG

/-- Modelled from the spec: `enum_checksum` of `Src/etc/cbl_checksum.c` is
not under `src/`.  The checksum argument is optional — "If not present, no
checksum is assumed" (help text of `cmd_help` and spec §4.6); the kinds are
`no`, `crc`, `sha256` (help text), and an unknown requested kind yields
`UnsupportedChecksum` (spec §4.5). -/
def enum_checksum (char_cksum : Option (List Char)) : Except cbl_err_code_t cksum_t :=
  match char_cksum with
  | none => .ok .CKSUM_NO
  | some s =>
    if s = "no".toList then .ok .CKSUM_NO
    else if s = "crc".toList then .ok .CKSUM_CRC
    else if s = "sha256".toList then .ok .CKSUM_SHA256
    else .error .CBL_ERR_UNSUP_CKSUM

/-- Modelled from the spec: `enum_app_type` is not under `src/`.  Spec §4.6:
required app type ∈ {bin, hex, srec}, else `AppTypeInvalid`
(`CBL_ERR_APP_TYPE`). -/
def enum_app_type (s : List Char) : Except cbl_err_code_t app_type_t :=
  if s = "bin".toList then .ok .TYPE_BIN
  else if s = "hex".toList then .ok .TYPE_HEX
  else if s = "srec".toList then .ok .TYPE_SREC
  else .error .CBL_ERR_APP_TYPE

/-- Modelled from the spec: `BOOT_NEW_APP_MAX_LEN` is defined in the
boot-record header, not under `src/`; scenario D of the spec fixes it at
1024. -/
def BOOT_NEW_APP_MAX_LEN : Nat := 1024

/-- Embedding of `update_new_get_params` (`Src/commands/cbl_cmds_update_new.c` lines
78–119): `count` is required (`CBL_ERR_NEED_PARAM` when absent) and is
converted with `str2ui32`; a value above `BOOT_NEW_APP_MAX_LEN` yields
`CBL_ERR_NEW_APP_LEN`; the `cksum` value is looked up WITHOUT a NULL check
and handed to `enum_checksum` (absence is not an error); `type` is required
(`CBL_ERR_NEED_PARAM` when absent) and is converted with `enum_app_type`. -/
def update_new_get_params (p : parser_t) :
    Except cbl_err_code_t (Nat × cksum_t × app_type_t) :=
  match parser_get_val p ("count".toList) with
  | none => .error .CBL_ERR_NEED_PARAM
  | some char_len =>
    match str2ui32 char_len with
    | .error e => .error e
    | .ok len =>
      if BOOT_NEW_APP_MAX_LEN < len then .error .CBL_ERR_NEW_APP_LEN
      else
        match enum_checksum (parser_get_val p ("cksum".toList)) with
        | .error e => .error e
        | .ok cksum =>
          match parser_get_val p ("type".toList) with
          | none => .error .CBL_ERR_NEED_PARAM
          | some char_app_type =>
            match enum_app_type char_app_type with
            | .error e => .error e
            | .ok app_type => .ok (len, cksum, app_type)

/-- Per-application metadata of the Boot Record (spec §3). -/
structure app_meta_t where
  app_type : app_type_t
  cksum_used : cksum_t
  len : Nat
  deriving DecidableEq, Repr

/-- The Boot Record (spec §3): staged (`new_app`) and active (`active_app`)
application metadata plus the readiness flag. -/
structure boot_record_t where
  new_app : app_meta_t
  active_app : app_meta_t
  is_new_app_ready : Bool
  deriving DecidableEq, Repr

/-- Outcomes of the collaborators `cmd_update_new` calls, in call order:
`hal_flash_erase_sector` on the staging sectors, `flash_write` of the staged
bytes (reception, programming and checksum verification), the Boot Record
loaded by `boot_record_get`, the result of `boot_record_set`, and the two
`hal_send_to_host` calls (success token, restart message). -/
structure UpdateEnv where
  eraseRes : cbl_err_code_t
  writeRes : cbl_err_code_t
  bootRec : boot_record_t
  setRes : cbl_err_code_t
  sendSuccessRes : cbl_err_code_t
  sendRestartRes : cbl_err_code_t
  deriving DecidableEq, Repr

/-- Outcome of `cmd_update_new`.  `ret e setCalled r`: the handler returned
error code `e`; `setCalled` records whether `boot_record_set` was invoked
before returning, and `r` is the Boot Record as the persistence layer last
saw it (the loaded record when `boot_record_set` was never called, the
mutated record passed to `boot_record_set` otherwise).  `restarted r`: every
step succeeded, the record `r` was persisted and the device restarts. -/
inductive UpdateOutcome where
  | ret (e : cbl_err_code_t) (setCalled : Bool) (r : boot_record_t)
  | restarted (r : boot_record_t)
  deriving DecidableEq, Repr

/-- Embedding of `cmd_update_new` (`Src/commands/cbl_cmds_update_new.c` lines 27–68):
get the parameters (`ERR_CHECK` returns any error), erase the staging
sectors (`ERR_CHECK`), receive and flash the bytes (`ERR_CHECK`), then load
the Boot Record, overwrite its `new_app` fields, set `is_new_app_ready`,
persist with `boot_record_set` (`ERR_CHECK`), send the success token
(`ERR_CHECK`), send "Restarting...", and restart. -/
def cmd_update_new (p : parser_t) (env : UpdateEnv) : UpdateOutcome :=
  match update_new_get_params p with
  | .error e => .ret e false env.bootRec
  | .ok (len, cksum, app_type) =>
    if env.eraseRes ≠ .CBL_ERR_OK then .ret env.eraseRes false env.bootRec
    else if env.writeRes ≠ .CBL_ERR_OK then .ret env.writeRes false env.bootRec
    else
      let rec2 : boot_record_t :=
        { env.bootRec with
          new_app := { app_type := app_type, cksum_used := cksum, len := len },
          is_new_app_ready := true }
      if env.setRes ≠ .CBL_ERR_OK then .ret env.setRes true rec2
      else if env.sendSuccessRes ≠ .CBL_ERR_OK then .ret env.sendSuccessRes true rec2
      else if env.sendRestartRes ≠ .CBL_ERR_OK then .ret env.sendRestartRes true rec2
      else .restarted rec2

/-- An all-zero "no app" Boot Record (spec §3: created with all-zero/"no app"
defaults at first boot), used for concrete executions. -/
def boot_record_zero : boot_record_t :=
  { new_app := { app_type := .TYPE_BIN, cksum_used := .CKSUM_NO, len := 0 },
    active_app := { app_type := .TYPE_BIN, cksum_used := .CKSUM_NO, len := 0 },
    is_new_app_ready := false }

example :
    cmd_update_new (cbl_ParseCmd ("update-new count=2048 type=bin".toList))
      { eraseRes := .CBL_ERR_OK, writeRes := .CBL_ERR_OK, bootRec := boot_record_zero,
        setRes := .CBL_ERR_OK, sendSuccessRes := .CBL_ERR_OK, sendRestartRes := .CBL_ERR_OK } =
      .ret .CBL_ERR_NEW_APP_LEN false boot_record_zero := by
  decide

example :
    cmd_update_new (cbl_ParseCmd ("update-new count=512 type=bin".toList))
      { eraseRes := .CBL_ERR_OK, writeRes := .CBL_ERR_OK, bootRec := boot_record_zero,
        setRes := .CBL_ERR_OK, sendSuccessRes := .CBL_ERR_HAL_TX, sendRestartRes := .CBL_ERR_OK } =
      .ret .CBL_ERR_HAL_TX true
        { new_app := { app_type := .TYPE_BIN, cksum_used := .CKSUM_NO, len := 512 },
          active_app := { app_type := .TYPE_BIN, cksum_used := .CKSUM_NO, len := 0 },
          is_new_app_ready := true } := by
  decide

/-! ## Helper lemmas -/

theorem parser_find_eq_none (name : List Char) (l : List (List Char × List Char))
    (h : ∀ a ∈ l, a.fst ≠ name) : parser_find name l = none := by
  induction l with
  | nil => rfl
  | cons a rest ih =>
    simp only [parser_find]
    rw [if_neg (h a (List.mem_cons_self a rest))]
    exact ih (fun b hb => h b (List.mem_cons_of_mem a hb))

theorem parser_find_append_first (name v : List Char)
    (pre post : List (List Char × List Char)) (hpre : ∀ a ∈ pre, a.fst ≠ name) :
    parser_find name (pre ++ (name, v) :: post) = some v := by
  induction pre with
  | nil => simp [parser_find]
  | cons a rest ih =>
    simp only [List.cons_append, parser_find]
    rw [if_neg (hpre a (List.mem_cons_self a rest))]
    exact ih (fun b hb => hpre b (List.mem_cons_of_mem a hb))

theorem erase_hw_ne_noHw (env : EraseEnv) (mass : Bool) (sect count : Nat)
    (e : CBL_ErrCode_t) : erase_hw env mass sect count ≠ .noHw e := by
  unfold erase_hw
  split <;> simp

/-! ## Claims -/

/-- Claim C9: for every constructed Parsed Command, looking up a key that
matches no recorded argument name (exact length and content) returns `NULL`
(`none`), and looking up a present key returns the value of the first
recorded argument whose name matches, so with duplicate keys the first
occurrence wins. -/
theorem cbl_ParserGetArgVal_first_match :
    (∀ (p : parser_t) (name : List Char),
      (∀ a ∈ p.args, a.fst ≠ name) → cbl_ParserGetArgVal p name = none) ∧
    (∀ (p : parser_t) (name v : List Char) (pre post : List (List Char × List Char)),
      p.args = pre ++ (name, v) :: post →
      (∀ a ∈ pre, a.fst ≠ name) →
      cbl_ParserGetArgVal p name = some v) := by
  constructor
  · intro p name h
    unfold cbl_ParserGetArgVal
    exact parser_find_eq_none name p.args h
  · intro p name v pre post hargs hpre
    unfold cbl_ParserGetArgVal
    rw [hargs]
    exact parser_find_append_first name v pre post hpre

/-- Closed instance of `cbl_ParserGetArgVal_first_match`: on a parser with a
duplicate `addr` key, the absent key `count` is not found and the duplicate
key resolves to the first recorded value. -/
theorem cbl_ParserGetArgVal_first_match_witness :
    cbl_ParserGetArgVal
        { cmd := "jump-to".toList,
          args := [("addr".toList, "1".toList), ("addr".toList, "2".toList)] }
        ("count".toList) = none ∧
    cbl_ParserGetArgVal
        { cmd := "jump-to".toList,
          args := [("addr".toList, "1".toList), ("addr".toList, "2".toList)] }
        ("addr".toList) = some ("1".toList) := by
  constructor
  · exact cbl_ParserGetArgVal_first_match.1
      { cmd := "jump-to".toList,
        args := [("addr".toList, "1".toList), ("addr".toList, "2".toList)] }
      ("count".toList) (by decide)
  · exact cbl_ParserGetArgVal_first_match.2
      { cmd := "jump-to".toList,
        args := [("addr".toList, "1".toList), ("addr".toList, "2".toList)] }
      ("addr".toList) ("1".toList) [] [("addr".toList, "2".toList)] (by decide) (by decide)

/-- Claim C2: in the jump-to handler, control is transferred only to a
validated address: when validation of the parsed address returns
`CBL_ERR_JUMP_INV_ADDR` the handler returns that error without jumping, and
every execution that jumps does so to exactly `validated address + 1`
(the `uint32_t` increment applied only after validation succeeded). -/
theorem cbl_HandleCmdJumpTo_validate_before_jump :
    ∀ (p : parser_t) (sendRes : CBL_ErrCode_t) (s : List Char),
      cbl_ParserGetArgVal p ("addr".toList) = some s →
      (cbl_VerifyJumpAddress (u32 (strtoul16 s)) = .CBL_ERR_JUMP_INV_ADDR →
        cbl_HandleCmdJumpTo p sendRes = .ret .CBL_ERR_JUMP_INV_ADDR) ∧
      (∀ t, cbl_HandleCmdJumpTo p sendRes = .jumped t →
        cbl_VerifyJumpAddress (u32 (strtoul16 s)) = .CBL_ERR_OK ∧
        t = u32 (u32 (strtoul16 s) + 1)) := by
  intro p sendRes s h
  constructor
  · intro hinv
    unfold cbl_HandleCmdJumpTo
    rw [h]
    dsimp only
    simp [hinv]
  · intro t ht
    unfold cbl_HandleCmdJumpTo at ht
    rw [h] at ht
    dsimp only at ht
    by_cases hv : cbl_VerifyJumpAddress (u32 (strtoul16 s)) = .CBL_ERR_OK
    · refine ⟨hv, ?_⟩
      by_cases hs : sendRes = .CBL_ERR_OK
      · simp only [hv, hs, ne_eq, not_true_eq_false, if_false] at ht
        simp only [JumpOutcome.jumped.injEq] at ht
        exact ht.symm
      · simp [hv, hs] at ht
    · simp [hv] at ht

/-- Closed instance of `cbl_HandleCmdJumpTo_validate_before_jump`: the
parsed address 0x40000000 (peripheral space) fails validation, and the
handler returns `CBL_ERR_JUMP_INV_ADDR` without producing a jump outcome. -/
theorem cbl_HandleCmdJumpTo_validate_before_jump_witness :
    cbl_HandleCmdJumpTo
        { cmd := "jump-to".toList, args := [("addr".toList, "0x40000000".toList)] }
        .CBL_ERR_OK = .ret .CBL_ERR_JUMP_INV_ADDR :=
  (cbl_HandleCmdJumpTo_validate_before_jump
    { cmd := "jump-to".toList, args := [("addr".toList, "0x40000000".toList)] }
    .CBL_ERR_OK ("0x40000000".toList) (by decide)).1 (by decide)

/-- Claim C8: `cbl_VerifyJumpAddress` is total and two-valued — for every
address it returns exactly `CBL_ERR_OK` or `CBL_ERR_JUMP_INV_ADDR` — and
every address of the peripheral/register space (0x40000000–0x5FFFFFFF) that
does not fall in the backup-SRAM window (the only jumpable region inside
that space; flash, CCM RAM, SRAM1, SRAM2 and system memory all lie below it)
is rejected with `CBL_ERR_JUMP_INV_ADDR`. -/
theorem cbl_VerifyJumpAddress_total_rejects_periph :
    ∀ a : Nat,
      (cbl_VerifyJumpAddress a = .CBL_ERR_OK ∨
        cbl_VerifyJumpAddress a = .CBL_ERR_JUMP_INV_ADDR) ∧
      (is_periph_address a = true → IS_BKPSRAM_ADDRESS a = false →
        cbl_VerifyJumpAddress a = .CBL_ERR_JUMP_INV_ADDR) := by
  intro a
  constructor
  · unfold cbl_VerifyJumpAddress
    split
    · exact Or.inl rfl
    · exact Or.inr rfl
  · intro hp hb
    simp only [is_periph_address, decide_eq_true_eq] at hp
    simp only [IS_BKPSRAM_ADDRESS] at hb
    rw [decide_eq_false_iff_not] at hb
    unfold cbl_VerifyJumpAddress
    rw [if_neg]
    simp only [IS_FLASH_ADDRESS, IS_CCMDATARAM_ADDRESS, IS_SRAM1_ADDRESS,
      IS_SRAM2_ADDRESS, IS_BKPSRAM_ADDRESS, IS_SYSMEM_ADDRESS, decide_eq_true_eq]
    push_neg
    omega

/-- Closed instance of `cbl_VerifyJumpAddress_total_rejects_periph`: the
peripheral register address 0x40000000 is rejected. -/
theorem cbl_VerifyJumpAddress_total_rejects_periph_witness :
    cbl_VerifyJumpAddress 0x40000000 = .CBL_ERR_JUMP_INV_ADDR :=
  (cbl_VerifyJumpAddress_total_rejects_periph 0x40000000).2 (by decide) (by decide)

/-- Claim C4: every error code with an explicit case in `sys_state_error` is
converted to `CBL_ERR_OK`, so the error state transitions back to
`STATE_OPER` for all such codes; the error state transitions to `STATE_EXIT`
exactly for the codes the handler does not recognize (they fall to
`default:` and are returned unchanged).  After a jump-to with an address in
no jumpable region (`CBL_ERR_JUMP_INV_ADDR`), a message beginning
"\r\nERROR: Invalid address" is sent to the host and the machine returns to
`STATE_OPER`. -/
theorem sys_state_error_recognized_recoverable :
    (∀ e, recognized_by_sys_state_error e = true →
      (sys_state_error e).fst = .CBL_ERR_OK ∧ err_next_state e = .STATE_OPER) ∧
    (∀ e, err_next_state e = .STATE_EXIT ↔ recognized_by_sys_state_error e = false) ∧
    ((sys_state_error .CBL_ERR_JUMP_INV_ADDR).snd.any
        (fun m => ("\r\nERROR: Invalid address".toList).isPrefixOf m.toList) = true ∧
      err_next_state .CBL_ERR_JUMP_INV_ADDR = .STATE_OPER) := by
  refine ⟨?_, ?_, ?_, ?_⟩
  · intro e he
    cases e <;> first
      | exact absurd he (by decide)
      | exact ⟨rfl, by decide⟩
  · intro e
    cases e <;> decide
  · decide
  · decide

/-- Closed instance of `sys_state_error_recognized_recoverable`: the
recognized codes `CBL_ERR_READ_OF`, `CBL_ERR_CMD_UNDEF`,
`CBL_ERR_NEED_PARAM`, `CBL_ERR_JUMP_INV_ADDR` and `CBL_ERR_CKSUM_WRONG` are
all converted to `CBL_ERR_OK` and send the machine back to `STATE_OPER`. -/
theorem sys_state_error_recognized_recoverable_witness :
    ((sys_state_error .CBL_ERR_READ_OF).fst = .CBL_ERR_OK ∧
      err_next_state .CBL_ERR_READ_OF = .STATE_OPER) ∧
    ((sys_state_error .CBL_ERR_CMD_UNDEF).fst = .CBL_ERR_OK ∧
      err_next_state .CBL_ERR_CMD_UNDEF = .STATE_OPER) ∧
    ((sys_state_error .CBL_ERR_NEED_PARAM).fst = .CBL_ERR_OK ∧
      err_next_state .CBL_ERR_NEED_PARAM = .STATE_OPER) ∧
    ((sys_state_error .CBL_ERR_JUMP_INV_ADDR).fst = .CBL_ERR_OK ∧
      err_next_state .CBL_ERR_JUMP_INV_ADDR = .STATE_OPER) ∧
    ((sys_state_error .CBL_ERR_CKSUM_WRONG).fst = .CBL_ERR_OK ∧
      err_next_state .CBL_ERR_CKSUM_WRONG = .STATE_OPER) :=
  ⟨sys_state_error_recognized_recoverable.1 .CBL_ERR_READ_OF (by decide),
   sys_state_error_recognized_recoverable.1 .CBL_ERR_CMD_UNDEF (by decide),
   sys_state_error_recognized_recoverable.1 .CBL_ERR_NEED_PARAM (by decide),
   sys_state_error_recognized_recoverable.1 .CBL_ERR_JUMP_INV_ADDR (by decide),
   sys_state_error_recognized_recoverable.1 .CBL_ERR_CKSUM_WRONG (by decide)⟩

/-- Claim C3: for every sector-type flash-erase request the handler returns
`CBL_ERR_INV_SECT` when the converted first sector is at least
`FLASH_SECTOR_TOTAL`, and — when the first sector passes — returns
`CBL_ERR_INV_SECT_COUNT` when `sector + count - 1 ≥ FLASH_SECTOR_TOTAL`
(checked over `Int` because the `uint8_t` operands are promoted); both
rejections happen before any flash unlock or hardware erase call (`noHw`).
With `FLASH_SECTOR_TOTAL = 12`, `sector=2 count=3` passes validation (the
outcome is never `noHw`) while `sector=10 count=5` returns
`CBL_ERR_INV_SECT_COUNT` regardless of the hardware outcomes. -/
theorem cbl_HandleCmdFlashErase_sector_validation :
    (∀ (p : parser_t) (env : EraseEnv) (ty s c : List Char),
      cbl_ParserGetArgVal p ("type".toList) = some ty →
      ("sector".toList).isPrefixOf ty = true →
      cbl_ParserGetArgVal p ("sector".toList) = some s →
      cbl_ParserGetArgVal p ("count".toList) = some c →
      (FLASH_SECTOR_TOTAL ≤ u8 (strtoul10 s) →
        cbl_HandleCmdFlashErase p env = .noHw .CBL_ERR_INV_SECT) ∧
      (u8 (strtoul10 s) < FLASH_SECTOR_TOTAL →
        (FLASH_SECTOR_TOTAL : Int) ≤ (u8 (strtoul10 s) : Int) + (u8 (strtoul10 c) : Int) - 1 →
        cbl_HandleCmdFlashErase p env = .noHw .CBL_ERR_INV_SECT_COUNT)) ∧
    (∀ (env : EraseEnv) (e : CBL_ErrCode_t),
      cbl_HandleCmdFlashErase
        (cbl_ParseCmd ("flash-erase type=sector sector=2 count=3".toList)) env ≠ .noHw e) ∧
    (∀ env : EraseEnv,
      cbl_HandleCmdFlashErase
        (cbl_ParseCmd ("flash-erase type=sector sector=10 count=5".toList)) env =
        .noHw .CBL_ERR_INV_SECT_COUNT) := by
  refine ⟨?_, ?_, ?_⟩
  · intro p env ty s c hty hpre hs hc
    unfold cbl_HandleCmdFlashErase
    rw [hty]
    dsimp only
    rw [if_pos hpre, hs]
    dsimp only
    constructor
    · intro h12
      rw [if_pos h12]
    · intro hlt hge
      rw [if_neg (by omega), hc]
      dsimp only
      rw [if_pos hge]
  · intro env e hcontra
    have heq : cbl_HandleCmdFlashErase
        (cbl_ParseCmd ("flash-erase type=sector sector=2 count=3".toList)) env =
        erase_hw env false 2 3 := rfl
    rw [heq] at hcontra
    exact erase_hw_ne_noHw env false 2 3 e hcontra
  · intro env
    rfl

/-- Closed instance of `cbl_HandleCmdFlashErase_sector_validation`: a
sector-type request with `sector=15` is rejected with `CBL_ERR_INV_SECT`
before touching hardware. -/
theorem cbl_HandleCmdFlashErase_sector_validation_witness :
    cbl_HandleCmdFlashErase
      { cmd := "flash-erase".toList,
        args := [("type".toList, "sector".toList), ("sector".toList, "15".toList),
                 ("count".toList, "1".toList)] }
      { unlockOk := true, halOk := true, sectorCode := 0xFFFFFFFF, sendRes := .CBL_ERR_OK } =
      .noHw .CBL_ERR_INV_SECT :=
  (cbl_HandleCmdFlashErase_sector_validation.1
    { cmd := "flash-erase".toList,
      args := [("type".toList, "sector".toList), ("sector".toList, "15".toList),
               ("count".toList, "1".toList)] }
    { unlockOk := true, halOk := true, sectorCode := 0xFFFFFFFF, sendRes := .CBL_ERR_OK }
    ("sector".toList) ("15".toList) ("1".toList)
    (by decide) (by decide) (by decide) (by decide)).1 (by decide)

/-- Claim C10: a sector-type flash-erase request with `count=0` and any
first sector below `FLASH_SECTOR_TOTAL` passes both validity checks (under
integer promotion `sect + 0 - 1 ≥ 12` is false, including for `sect = 0`
where the left side is `-1`), and the handler proceeds past validation to
unlock flash and invoke the hardware erase with a sector count of 0. -/
theorem cbl_HandleCmdFlashErase_count_zero :
    ∀ (p : parser_t) (env : EraseEnv) (ty s : List Char),
      cbl_ParserGetArgVal p ("type".toList) = some ty →
      ("sector".toList).isPrefixOf ty = true →
      cbl_ParserGetArgVal p ("sector".toList) = some s →
      cbl_ParserGetArgVal p ("count".toList) = some ("0".toList) →
      u8 (strtoul10 s) < FLASH_SECTOR_TOTAL →
      env.unlockOk = true →
      ∃ e, cbl_HandleCmdFlashErase p env = .erased false (u8 (strtoul10 s)) 0 e := by
  intro p env ty s hty hpre hs hc hlt hu
  unfold cbl_HandleCmdFlashErase
  rw [hty]
  dsimp only
  rw [if_pos hpre, hs]
  dsimp only
  rw [if_neg (by omega), hc]
  dsimp only
  rw [if_neg (by
    have h0 : u8 (strtoul10 ("0".toList)) = 0 := rfl
    rw [h0]
    omega)]
  unfold erase_hw
  rw [hu]
  exact ⟨_, by rw [if_neg (by simp)]; rfl⟩

/-- Closed instance of `cbl_HandleCmdFlashErase_count_zero`: `sector=5
count=0` reaches the hardware erase with a sector count of 0. -/
theorem cbl_HandleCmdFlashErase_count_zero_witness :
    ∃ e, cbl_HandleCmdFlashErase
      { cmd := "flash-erase".toList,
        args := [("type".toList, "sector".toList), ("sector".toList, "5".toList),
                 ("count".toList, "0".toList)] }
      { unlockOk := true, halOk := true, sectorCode := 0xFFFFFFFF, sendRes := .CBL_ERR_OK } =
      .erased false 5 0 e :=
  cbl_HandleCmdFlashErase_count_zero
    { cmd := "flash-erase".toList,
      args := [("type".toList, "sector".toList), ("sector".toList, "5".toList),
               ("count".toList, "0".toList)] }
    { unlockOk := true, halOk := true, sectorCode := 0xFFFFFFFF, sendRes := .CBL_ERR_OK }
    ("sector".toList) ("5".toList)
    (by decide) (by decide) (by decide) (by decide) (by decide) (by decide)

/-- Claim C7: for the update-new command the checksum-kind argument is
optional: a command line that supplies a valid count (within the staged
maximum) and a valid app type but omits the `cksum` key is not rejected for
the missing key — parameter extraction succeeds with "no checksum" instead
of returning `CBL_ERR_NEED_PARAM` or any other error. -/
theorem update_new_get_params_cksum_optional :
    ∀ (p : parser_t) (c t : List Char) (v : Nat) (a : app_type_t),
      parser_get_val p ("count".toList) = some c →
      str2ui32 c = .ok v →
      v ≤ BOOT_NEW_APP_MAX_LEN →
      parser_get_val p ("cksum".toList) = none →
      parser_get_val p ("type".toList) = some t →
      enum_app_type t = .ok a →
      update_new_get_params p = .ok (v, .CKSUM_NO, a) := by
  intro p c t v a hc hv hle hck ht ha
  unfold update_new_get_params
  rw [hc]
  dsimp only
  rw [hv]
  dsimp only
  rw [if_neg (by omega), hck]
  dsimp only [enum_checksum]
  rw [ht]
  dsimp only
  rw [ha]

/-- Closed instance of `update_new_get_params_cksum_optional`: the line
`update-new count=512 type=bin` (no `cksum` key) yields parameters
`(512, no checksum, binary)`. -/
theorem update_new_get_params_cksum_optional_witness :
    update_new_get_params (cbl_ParseCmd ("update-new count=512 type=bin".toList)) =
      .ok (512, .CKSUM_NO, .TYPE_BIN) :=
  update_new_get_params_cksum_optional
    (cbl_ParseCmd ("update-new count=512 type=bin".toList))
    ("512".toList) ("bin".toList) 512 .TYPE_BIN
    (by decide) (by rfl) (by decide) (by decide) (by decide) (by rfl)

/-- Counterexample to claim C1 as stated: an execution of the update-new
handler in which parameter extraction, the staging erase, the flash write
and `boot_record_set` all succeed but the success-token transmit fails
returns the error `CBL_ERR_HAL_TX` — yet `boot_record_set` was already
called, with a record whose `new_app` fields and `is_new_app_ready` flag
differ from the loaded record.  So not every execution that returns an error
returns before `boot_record_set`. -/
theorem cmd_update_new_error_after_set_cex :
    cmd_update_new (cbl_ParseCmd ("update-new count=512 type=bin".toList))
      { eraseRes := .CBL_ERR_OK, writeRes := .CBL_ERR_OK, bootRec := boot_record_zero,
        setRes := .CBL_ERR_OK, sendSuccessRes := .CBL_ERR_HAL_TX,
        sendRestartRes := .CBL_ERR_OK } =
      .ret .CBL_ERR_HAL_TX true
        { new_app := { app_type := .TYPE_BIN, cksum_used := .CKSUM_NO, len := 512 },
          active_app := { app_type := .TYPE_BIN, cksum_used := .CKSUM_NO, len := 0 },
          is_new_app_ready := true } ∧
    ({ new_app := { app_type := .TYPE_BIN, cksum_used := .CKSUM_NO, len := 512 },
       active_app := { app_type := .TYPE_BIN, cksum_used := .CKSUM_NO, len := 0 },
       is_new_app_ready := true } : boot_record_t) ≠ boot_record_zero := by
  constructor
  · decide
  · decide

/-- Claim C1, amended: every execution of the update-new handler that
returns an error arising from a step before the boot-record mutation —
parameter extraction, the staging erase, or the flash write — returns before
`boot_record_set` is called, leaving the loaded Boot Record (in particular
its `active_app` fields and `is_new_app_ready` flag) unchanged; these are
exactly the error returns on which `boot_record_set` is not called.  In
particular a requested byte count greater than `BOOT_NEW_APP_MAX_LEN`
returns `CBL_ERR_NEW_APP_LEN` from parameter extraction this way.  (A
failure of `boot_record_set` itself or of the completion transmits also
returns an error, but only after `boot_record_set` was invoked.) -/
theorem cmd_update_new_abort_before_set :
    (∀ (p : parser_t) (env : UpdateEnv) (e : cbl_err_code_t) (sc : Bool) (r : boot_record_t),
      cmd_update_new p env = .ret e sc r →
      (sc = false ↔ ((∃ e0, update_new_get_params p = .error e0) ∨
        env.eraseRes ≠ .CBL_ERR_OK ∨ env.writeRes ≠ .CBL_ERR_OK)) ∧
      (sc = false → r = env.bootRec)) ∧
    (∀ (p : parser_t) (env : UpdateEnv) (c : List Char) (v : Nat),
      parser_get_val p ("count".toList) = some c →
      str2ui32 c = .ok v →
      BOOT_NEW_APP_MAX_LEN < v →
      cmd_update_new p env = .ret .CBL_ERR_NEW_APP_LEN false env.bootRec) := by
  constructor
  · intro p env e sc r hret
    unfold cmd_update_new at hret
    cases hgp : update_new_get_params p with
    | error e0 =>
      rw [hgp] at hret
      dsimp only at hret
      simp only [UpdateOutcome.ret.injEq] at hret
      obtain ⟨he', hsc, hr'⟩ := hret
      refine ⟨?_, fun _ => hr'.symm⟩
      constructor
      · intro _
        exact Or.inl ⟨e0, rfl⟩
      · intro _
        exact hsc.symm
    | ok val =>
      obtain ⟨len, ck, apt⟩ := val
      rw [hgp] at hret
      dsimp only at hret
      by_cases he1 : env.eraseRes = .CBL_ERR_OK
      · rw [if_neg (not_not_intro he1)] at hret
        by_cases he2 : env.writeRes = .CBL_ERR_OK
        · rw [if_neg (not_not_intro he2)] at hret
          have hsc : sc = true := by
            revert hret
            split
            · intro hret
              simp only [UpdateOutcome.ret.injEq] at hret
              exact hret.2.1.symm
            · split
              · intro hret
                simp only [UpdateOutcome.ret.injEq] at hret
                exact hret.2.1.symm
              · split
                · intro hret
                  simp only [UpdateOutcome.ret.injEq] at hret
                  exact hret.2.1.symm
                · intro hret
                  exact absurd hret (by simp)
          refine ⟨?_, ?_⟩
          · constructor
            · intro hf
              rw [hsc] at hf
              cases hf
            · rintro (⟨e0, h⟩ | h | h)
              · simp at h
              · exact absurd he1 h
              · exact absurd he2 h
          · intro hf
            rw [hsc] at hf
            cases hf
        · rw [if_pos he2] at hret
          simp only [UpdateOutcome.ret.injEq] at hret
          obtain ⟨he', hsc, hr'⟩ := hret
          refine ⟨?_, fun _ => hr'.symm⟩
          constructor
          · intro _
            exact Or.inr (Or.inr he2)
          · intro _
            exact hsc.symm
      · rw [if_pos he1] at hret
        simp only [UpdateOutcome.ret.injEq] at hret
        obtain ⟨he', hsc, hr'⟩ := hret
        refine ⟨?_, fun _ => hr'.symm⟩
        constructor
        · intro _
          exact Or.inr (Or.inl he1)
        · intro _
          exact hsc.symm
  · intro p env c v hc hv hlt
    unfold cmd_update_new update_new_get_params
    rw [hc]
    dsimp only
    rw [hv]
    dsimp only
    rw [if_pos hlt]

/-- Closed instance of `cmd_update_new_abort_before_set`: scenario D —
`update-new count=2048 type=bin` with `BOOT_NEW_APP_MAX_LEN = 1024` returns
`CBL_ERR_NEW_APP_LEN` without calling `boot_record_set`, the Boot Record
untouched. -/
theorem cmd_update_new_abort_before_set_witness :
    cmd_update_new (cbl_ParseCmd ("update-new count=2048 type=bin".toList))
      { eraseRes := .CBL_ERR_OK, writeRes := .CBL_ERR_OK, bootRec := boot_record_zero,
        setRes := .CBL_ERR_OK, sendSuccessRes := .CBL_ERR_OK, sendRestartRes := .CBL_ERR_OK } =
      .ret .CBL_ERR_NEW_APP_LEN false boot_record_zero :=
  cmd_update_new_abort_before_set.2
    (cbl_ParseCmd ("update-new count=2048 type=bin".toList))
    { eraseRes := .CBL_ERR_OK, writeRes := .CBL_ERR_OK, bootRec := boot_record_zero,
      setRes := .CBL_ERR_OK, sendSuccessRes := .CBL_ERR_OK, sendRestartRes := .CBL_ERR_OK }
    ("2048".toList) 2048 (by decide) (by rfl) (by decide)

theorem wfc_go_overflow :
    ∀ (inp : List Char) (r : Nat) (lastCR : Bool) (bufRev : List Char),
      r ≤ inp.length →
      (lastCR = true → 0 < r → inp[0]? ≠ some '\n') →
      (∀ j, j + 1 < r → ¬(inp[j]? = some '\r' ∧ inp[j + 1]? = some '\n')) →
      wfc_go inp r lastCR bufRev = some (.error .CBL_ERR_READ_OF) := by
  intro inp
  induction inp with
  | nil =>
    intro r lastCR bufRev hr _ _
    have hz : r = 0 := Nat.le_zero.mp hr
    subst hz
    rfl
  | cons ch rest ih =>
    intro r lastCR bufRev hr h0 hpair
    match r with
    | 0 => rfl
    | r' + 1 =>
      show wfc_go (ch :: rest) (r' + 1) lastCR bufRev = _
      unfold wfc_go
      rw [if_neg (by
        rintro ⟨hcr, hnl⟩
        exact h0 hcr (Nat.succ_pos r') (by simp [hnl]))]
      refine ih r' (decide (ch = '\r')) (ch :: bufRev) ?_ ?_ ?_
      · simp only [List.length_cons] at hr
        omega
      · intro hd hpos hln
        rw [decide_eq_true_eq] at hd
        exact hpair 0 (by omega) ⟨by simp [hd], by simpa using hln⟩
      · intro j hj hpr
        exact hpair (j + 1) (by omega) ⟨by simpa using hpr.1, by simpa using hpr.2⟩

theorem replicate_getElem?_eq (n j : Nat) (a c : Char)
    (h : (List.replicate n a)[j]? = some c) : c = a := by
  induction n generalizing j with
  | zero => simp [List.replicate] at h
  | succ n ih =>
    match j with
    | 0 =>
      rw [List.replicate_succ] at h
      simp only [List.getElem?_cons_zero, Option.some.injEq] at h
      exact h.symm
    | j + 1 =>
      rw [List.replicate_succ] at h
      simp only [List.getElem?_cons_succ] at h
      exact ih j h

/-- Claim C5: when no CR immediately followed by LF occurs within the first
`CMD_BUF_SZ` bytes the host sends, `wait_for_cmd` consumes the full buffer
and returns `CBL_ERR_READ_OF`; this error is non-fatal: `sys_state_error`
reports "Command too long" to the host and returns `CBL_ERR_OK`, so the
shell transitions back to `STATE_OPER` (where `sys_state_operation` reads
the next line into a fresh zeroed buffer). -/
theorem wait_for_cmd_overflow_recoverable :
    ∀ (input : List Char),
      CMD_BUF_SZ ≤ input.length →
      (∀ j, j + 1 < CMD_BUF_SZ → ¬(input[j]? = some '\r' ∧ input[j + 1]? = some '\n')) →
      wait_for_cmd input CMD_BUF_SZ = some (.error .CBL_ERR_READ_OF) ∧
      sys_state_error .CBL_ERR_READ_OF = (.CBL_ERR_OK, ["\r\nERROR: Command too long\r\n"]) ∧
      err_next_state .CBL_ERR_READ_OF = .STATE_OPER := by
  intro input hlen hpair
  refine ⟨?_, rfl, rfl⟩
  unfold wait_for_cmd
  exact wfc_go_overflow input CMD_BUF_SZ false [] hlen (by intro h; cases h) hpair

/-- Closed instance of `wait_for_cmd_overflow_recoverable`: 128 bytes of
`'a'` with no CRLF overflow the buffer, and the shell recovers to
`STATE_OPER`. -/
theorem wait_for_cmd_overflow_recoverable_witness :
    wait_for_cmd (List.replicate 128 'a') CMD_BUF_SZ = some (.error .CBL_ERR_READ_OF) ∧
    err_next_state .CBL_ERR_READ_OF = .STATE_OPER := by
  have h := wait_for_cmd_overflow_recoverable (List.replicate 128 'a')
    (by simp [CMD_BUF_SZ])
    (by
      intro j hj hc
      have ha : ('\r' : Char) = 'a' := replicate_getElem?_eq 128 j 'a' '\r' hc.1
      exact absurd ha (by decide))
  exact ⟨h.1, h.2.2⟩

theorem memchr_eq_none_iff (s : List Char) (c : Char) : memchr s c = none ↔ c ∉ s := by
  induction s with
  | nil => simp [memchr]
  | cons a rest ih =>
    simp only [memchr]
    by_cases h : a = c
    · simp [h]
    · simp only [if_neg h, Option.map_eq_none', ih, List.mem_cons]
      constructor
      · intro hn hor
        rcases hor with h1 | h2
        · exact h h1.symm
        · exact hn h2
      · intro hn hm
        exact hn (Or.inr hm)

theorem memchr_append_left (a b : List Char) (c : Char) (i : Nat)
    (h : memchr a c = some i) : memchr (a ++ b) c = some i := by
  induction a generalizing i with
  | nil => cases h
  | cons x rest ih =>
    rw [List.cons_append]
    simp only [memchr, List.append_eq] at h ⊢
    by_cases hx : x = c
    · simpa [hx] using h
    · simp only [if_neg hx] at h ⊢
      cases hm : memchr rest c with
      | none => rw [hm] at h; cases h
      | some k =>
        rw [hm] at h
        simp only [Option.map_some'] at h
        rw [ih k hm]
        simpa using h

theorem memchr_append_right (a b : List Char) (c : Char)
    (h : memchr a c = none) : memchr (a ++ b) c = (memchr b c).map (· + a.length) := by
  induction a with
  | nil =>
    simp only [List.nil_append, List.length_nil]
    cases memchr b c <;> simp
  | cons x rest ih =>
    simp only [memchr] at h
    by_cases hx : x = c
    · rw [if_pos hx] at h
      cases h
    · rw [if_neg hx] at h
      have h' : memchr rest c = none := by
        cases hm : memchr rest c with
        | none => rfl
        | some k => rw [hm] at h; cases h
      rw [List.cons_append]
      simp only [memchr, if_neg hx, List.append_eq]
      rw [ih h']
      simp only [List.length_cons]
      cases memchr b c with
      | none => rfl
      | some k => simp [Nat.add_assoc]

theorem memchr_lt_length (s : List Char) (c : Char) (i : Nat) (h : memchr s c = some i) :
    i < s.length := by
  induction s generalizing i with
  | nil => cases h
  | cons x rest ih =>
    simp only [memchr] at h
    by_cases hx : x = c
    · rw [if_pos hx] at h
      simp only [Option.some.injEq] at h
      simp [← h]
    · rw [if_neg hx] at h
      cases hm : memchr rest c with
      | none => rw [hm] at h; cases h
      | some k =>
        rw [hm] at h
        simp only [Option.map_some', Option.some.injEq] at h
        have hk := ih k hm
        simp only [List.length_cons]
        omega

theorem memchr_of_mem (s : List Char) (c : Char) (h : c ∈ s) :
    ∃ i, memchr s c = some i := by
  cases hm : memchr s c with
  | some i => exact ⟨i, rfl⟩
  | none => exact absurd h ((memchr_eq_none_iff s c).mp hm)

theorem memchr_sep (a b : List Char) (c : Char) (h : memchr a c = none) :
    memchr (a ++ c :: b) c = some a.length := by
  rw [memchr_append_right a _ c h]
  simp [memchr]

/-- The space-separated token list `t₁ t₂ … tₙ` joined back into one text:
the shape of the text after the first space of a command line whose tokens
contain no further adjacent or trailing spaces. -/
def join_tokens : List (List Char) → List Char
  | [] => []
  | [t] => t
  | t :: rest => t ++ ' ' :: join_tokens rest

/-- Splitting one token on its first `'='` (only used on tokens containing
an `'='`). -/
def split_first_eq (t : List Char) : List Char × List Char :=
  match memchr t '=' with
  | none => (t, [])
  | some i => (t.take i, t.drop (i + 1))

theorem parse_args_no_equals (fuel : Nat) (rest : List Char)
    (h : memchr rest '=' = none) : parse_args fuel rest = [] := by
  match fuel with
  | 0 => rfl
  | f + 1 =>
    unfold parse_args
    rw [h]

theorem parse_args_tokens :
    ∀ (ts : List (List Char)) (fuel : Nat),
      ts.length ≤ fuel →
      (∀ t ∈ ts, t ≠ [] ∧ ' ' ∉ t ∧ '=' ∈ t) →
      parse_args fuel (join_tokens ts) = ts.map split_first_eq := by
  intro ts
  induction ts with
  | nil =>
    intro fuel _ _
    match fuel with
    | 0 => rfl
    | f + 1 => rfl
  | cons t ts' ih =>
    intro fuel hlen hwf
    obtain ⟨hne, hnsp, heqm⟩ := hwf t (List.mem_cons_self t ts')
    obtain ⟨i, hi⟩ := memchr_of_mem t '=' heqm
    have hilt : i < t.length := memchr_lt_length t '=' i hi
    match fuel with
    | 0 => simp at hlen
    | f + 1 =>
      cases ts' with
      | nil =>
        show parse_args (f + 1) (join_tokens [t]) = [split_first_eq t]
        have hJ : join_tokens [t] = t := rfl
        rw [hJ]
        unfold parse_args
        rw [hi]
        dsimp only
        have hnsp' : memchr (t.drop (i + 1)) ' ' = none := by
          rw [memchr_eq_none_iff]
          intro hmem
          exact hnsp (List.mem_of_mem_drop hmem)
        rw [hnsp']
        simp [split_first_eq, hi]
      | cons t2 ts'' =>
        have hJ : join_tokens (t :: t2 :: ts'') = t ++ ' ' :: join_tokens (t2 :: ts'') := rfl
        rw [hJ]
        unfold parse_args
        rw [memchr_append_left t _ '=' i hi]
        dsimp only
        rw [List.take_append_of_le_length (Nat.le_of_lt hilt),
            List.drop_append_of_le_length (by omega)]
        have hdnsp : memchr (t.drop (i + 1)) ' ' = none := by
          rw [memchr_eq_none_iff]
          intro hmem
          exact hnsp (List.mem_of_mem_drop hmem)
        rw [memchr_sep _ _ ' ' hdnsp]
        dsimp only
        have hf0 : f ≠ 0 := by
          simp only [List.length_cons] at hlen
          omega
        rw [if_neg hf0]
        rw [List.take_left' rfl]
        rw [List.append_cons, List.drop_left' (by simp)]
        rw [ih f (by simp only [List.length_cons] at hlen ⊢; omega)
          (fun u hu => hwf u (List.mem_cons_of_mem t hu))]
        simp [split_first_eq, hi]

/-- Counterexample to claim C6 as stated: on the line `cmd a b=2` the token
`a` contains no `'='`, so by the claim argument scanning should stop there
and record no pairs; but `cbl_ParseCmd` records the pair `("a b", "2")`,
whose name spans the `'='`-less token and the following space — scanning did
not stop, and the recorded argument is not a `name=value` token of the
line. -/
theorem cbl_ParseCmd_token_scan_cex :
    (cbl_ParseCmd ("cmd a b=2".toList)).args = [("a b".toList, "2".toList)] ∧
    (cbl_ParseCmd ("cmd a b=2".toList)).args ≠ [] ∧
    memchr ("a".toList) '=' = none ∧
    ' ' ∈ ("a b".toList) := by
  refine ⟨by decide, by decide, by decide, by decide⟩

/-- Claim C6, amended: argument scanning stops (with no error — the parser
total) exactly when the remainder of the line contains no `'='` at all: a
token with no `'='` stops scanning only when no later token contains one.
When every token after the command name is nonempty, space-free and contains
an `'='` (and the token count is within `CBL_MAX_ARGS`), the recorded
arguments are exactly those tokens, each split on its first `'='`. -/
theorem cbl_ParseCmd_scan_stop_behavior :
    (∀ (fuel : Nat) (rest : List Char),
      memchr rest '=' = none → parse_args fuel rest = []) ∧
    (∀ (line : List Char) (sp : Nat),
      memchr (strlwr line) ' ' = some sp →
      memchr ((strlwr line).drop (sp + 1)) '=' = none →
      (cbl_ParseCmd line).args = []) ∧
    (∀ ts : List (List Char),
      (∀ t ∈ ts, t ≠ [] ∧ ' ' ∉ t ∧ '=' ∈ t) →
      ts.length ≤ CBL_MAX_ARGS →
      parse_args CBL_MAX_ARGS (join_tokens ts) = ts.map split_first_eq) := by
  refine ⟨?_, ?_, ?_⟩
  · intro fuel rest h
    exact parse_args_no_equals fuel rest h
  · intro line sp hsp hnone
    unfold cbl_ParseCmd
    dsimp only
    rw [hsp]
    dsimp only
    exact parse_args_no_equals CBL_MAX_ARGS _ hnone
  · intro ts hwf hlen
    exact parse_args_tokens ts CBL_MAX_ARGS hlen hwf

/-- Closed instance of `cbl_ParseCmd_scan_stop_behavior`: the well-formed
token text `a=1 b=2` is scanned into exactly its two tokens split on their
first `'='`. -/
theorem cbl_ParseCmd_scan_stop_behavior_witness :
    parse_args CBL_MAX_ARGS ("a=1 b=2".toList) =
      [("a".toList, "1".toList), ("b".toList, "2".toList)] := by
  have h := cbl_ParseCmd_scan_stop_behavior.2.2 ["a=1".toList, "b=2".toList]
    (by decide) (by decide)
  simpa using h
